import Mathlib

/-!
Verification development for the kerux homeserver (Rust).

Strings from the Rust side are modelled as lists of characters (`Str`), with
byte lengths computed the way `str::len` / `char::len_utf8` do.  Fallible Rust
functions returning `Result` are modelled with `Except`; functions that can
panic are modelled with `Option` (`none` = panic).  Machine integers (`u32`,
`usize`) carry no overflowing arithmetic in the modelled code paths and are
modelled as `Nat`; the one place the source can underflow (`len() - 1` on an
empty room in `query_pdus`) is noted at its definition.
-/

/-- Rust string slices, modelled as lists of characters. -/
abbrev Str := List Char

/-- Number of UTF-8 bytes of one character, as Rust `char::len_utf8` computes it. -/
def charBytes (c : Char) : Nat :=
  if c.val ≤ 0x7f then 1
  else if c.val ≤ 0x7ff then 2
  else if c.val ≤ 0xffff then 3
  else 4

/-- Byte length of a string, as Rust `str::len` computes it. -/
def byteLen (s : Str) : Nat := (s.map charBytes).sum

/-- Rust `str::split(':')` (src/util/mxid.rs, `validate_all`): split a string at
every colon; the empty string yields one empty piece. -/
def splitOnColon : Str → List Str
  | [] => [[]]
  | c :: rest =>
    if c = ':' then [] :: splitOnColon rest
    else
      match splitOnColon rest with
      | s :: ss => (c :: s) :: ss
      | [] => [[c]]

/-- Rust `Vec::join(":")` (src/util/mxid.rs, `validate_all`). -/
def joinColon : List Str → Str
  | [] => []
  | [s] => s
  | s :: rest => s ++ ':' :: joinColon rest

theorem splitOnColon_ne_nil (s : Str) : splitOnColon s ≠ [] := by
  induction s with
  | nil => simp [splitOnColon]
  | cons c rest ih =>
    simp only [splitOnColon]
    split
    · simp
    · cases h : splitOnColon rest with
      | nil => simp
      | cons a as => simp

theorem splitOnColon_append_colon (l d : Str) (h : ':' ∉ l) :
    splitOnColon (l ++ ':' :: d) = l :: splitOnColon d := by
  induction l with
  | nil => simp [splitOnColon]
  | cons c rest ih =>
    simp only [List.mem_cons, not_or] at h
    simp only [List.cons_append, splitOnColon, List.append_eq]
    rw [if_neg (fun hc => h.1 hc.symm), ih h.2]

theorem joinColon_splitOnColon (s : Str) : joinColon (splitOnColon s) = s := by
  induction s with
  | nil => simp [splitOnColon, joinColon]
  | cons c rest ih =>
    simp only [splitOnColon]
    split
    · rename_i hc
      subst hc
      cases h : splitOnColon rest with
      | nil => exact absurd h (splitOnColon_ne_nil rest)
      | cons a as => rw [h] at ih; simp [joinColon, ih]
    · cases h : splitOnColon rest with
      | nil => exact absurd h (splitOnColon_ne_nil rest)
      | cons a as =>
        rw [h] at ih
        cases as with
        | nil =>
          simp only [joinColon] at ih ⊢
          exact congrArg (List.cons c) ih
        | cons b bs =>
          simp only [joinColon, List.cons_append] at ih ⊢
          exact congrArg (List.cons c) ih

theorem splitOnColon_no_colon (s : Str) (h : ':' ∉ s) : splitOnColon s = [s] := by
  induction s with
  | nil => simp [splitOnColon]
  | cons c rest ih =>
    simp only [List.mem_cons, not_or] at h
    simp only [splitOnColon]
    rw [if_neg (fun hc => h.1 hc.symm), ih h.2]

/-! ## Domains (src/util/domain.rs)

The server-name grammar lives in `mxid_server_name.regex`, which is not part
of the sources available here; only `Domain::is_valid` applies it. -/

/-- Character allowed in a hostname. -/
def hostChar (c : Char) : Bool :=
  c.isLower || (c.val ≥ 65 && c.val ≤ 90) || c.isDigit || c = '.' || c = '-'

/-- Modelled from the spec: the server-name grammar checked by
`Domain::is_valid` (src/util/domain.rs) via the missing
`mxid_server_name.regex` file — "domain must match a server-name grammar
(hostname, optional `:port`)".  A hostname is a nonempty run of letters,
digits, dots and hyphens; a port is a nonempty run of digits. -/
def domainValid (s : Str) : Bool :=
  match splitOnColon s with
  | [h] => h ≠ [] && h.all hostChar
  | [h, p] => (h ≠ [] && h.all hostChar) && (p ≠ [] && p.all Char.isDigit)
  | _ => false

/-- Matrix server domain (src/util/domain.rs, `Domain`). -/
structure Domain where
  url : Str
deriving DecidableEq, Repr

/-- Rust `Domain::new` (src/util/domain.rs). -/
def Domain.new (url : Str) : Option Domain :=
  if domainValid url then some ⟨url⟩ else none

/-- Rust `Domain::from_str` (src/util/domain.rs): validates, keeping the string. -/
def Domain.from_str (s : Str) : Except Unit Domain :=
  if domainValid s then .ok ⟨s⟩ else .error ()

/-! ## Identifiers (src/util/mxid.rs) -/

/-- Rust `Id<const PREFIX: char>` (src/util/mxid.rs), with the const generic
as a structure parameter. -/
structure Mxid (pre : Char) where
  domain : Domain
  localpart : Str
deriving DecidableEq, Repr

/-- Identifier for a user (src/util/mxid.rs, `MatrixId`). -/
abbrev MatrixId := Mxid '@'
/-- Identifier for a room (src/util/mxid.rs, `RoomId`). -/
abbrev RoomId := Mxid '!'

/-- Rust `IdError` (src/util/mxid.rs). -/
inductive MxidError where
  | TooLong
  | InvalidChar
  | NoLeadingChar (c : Char)
  | WrongNumberOfColons
  | InvalidDomain
deriving DecidableEq, Repr

/-- Rust `Id::is_matrix_id` (src/util/mxid.rs). -/
def Mxid.is_matrix_id (pre : Char) : Bool := pre = '@'

/-- Character allowed in a user-id localpart (src/util/mxid.rs,
`validate_parts`: ascii lowercase, ascii digit, or one of `-_.=/`). -/
def userLocalChar (c : Char) : Bool :=
  c.isLower || c.isDigit || c = '-' || c = '_' || c = '.' || c = '=' || c = '/'

/-- Rust `Id::validate_parts` (src/util/mxid.rs): character check applies only
to user ids; then the 255-byte length bound including prefix and colon. -/
def Mxid.validate_parts (pre : Char) (localpart : Str) (domain : Domain) :
    Except MxidError Unit :=
  if Mxid.is_matrix_id pre && localpart.any (fun c => !userLocalChar c) then
    .error .InvalidChar
  else if byteLen localpart + byteLen domain.url + 1 + charBytes pre > 255 then
    .error .TooLong
  else
    .ok ()

/-- Rust `Id::validate_all` (src/util/mxid.rs): leading prefix character, split
on colons (localpart before the first colon, domain the rest re-joined),
domain grammar, then `validate_parts`. -/
def Mxid.validate_all (pre : Char) (mxid : Str) : Except MxidError (Domain × Str) :=
  match mxid with
  | [] => .error (.NoLeadingChar pre)
  | c :: remaining =>
    if c ≠ pre then .error (.NoLeadingChar pre)
    else
      match splitOnColon remaining with
      | [] => .error (.NoLeadingChar pre)
      | localpart :: domain_parts =>
        if domain_parts.isEmpty then .error .WrongNumberOfColons
        else
          match Domain.from_str (joinColon domain_parts) with
          | .error _ => .error .InvalidDomain
          | .ok domain =>
            match Mxid.validate_parts pre localpart domain with
            | .error e => .error e
            | .ok _ => .ok (domain, localpart)

/-- Rust `Id::new` (src/util/mxid.rs): the validating factory. -/
def Mxid.new (pre : Char) (localpart : Str) (domain : Domain) :
    Except MxidError (Mxid pre) :=
  match Mxid.validate_parts pre localpart domain with
  | .error e => .error e
  | .ok _ => .ok ⟨domain, localpart⟩

/-- Rust `Display for Id` (src/util/mxid.rs): `{PREFIX}{localpart}:{domain}`. -/
def Mxid.toStr {pre : Char} (id : Mxid pre) : Str :=
  pre :: id.localpart ++ ':' :: id.domain.url

/-- Rust `FromStr for Id` (src/util/mxid.rs). -/
def Mxid.from_str (pre : Char) (s : Str) : Except MxidError (Mxid pre) :=
  match Mxid.validate_all pre s with
  | .error e => .error e
  | .ok (domain, localpart) => .ok ⟨domain, localpart⟩

/-- Rust `Id::new_len_checked` (src/util/mxid.rs): only the length bound. -/
def Mxid.new_len_checked (pre : Char) (local_ : Str) (domain : Domain) :
    Except MxidError (Mxid pre) :=
  if byteLen domain.url + 2 + byteLen local_ > 255 then .error .TooLong
  else .ok ⟨domain, local_⟩

/-- Rust `Id::<'@'>::new_with_random_local` (src/util/mxid.rs): the localpart
is the fixed string "todo-impl-me". -/
def MatrixId.new_with_random_local (domain : Domain) : Except MxidError MatrixId :=
  Mxid.new_len_checked '@' "todo-impl-me".data domain

theorem validate_parts_user_no_colon (l : Str) (d : Domain)
    (h : Mxid.validate_parts '@' l d = .ok ()) : ':' ∉ l := by
  intro hmem
  have hany : l.any (fun c => !userLocalChar c) = true := by
    refine List.any_eq_true.mpr ⟨':', hmem, ?_⟩
    decide
  unfold Mxid.validate_parts at h
  rw [show Mxid.is_matrix_id '@' = true from rfl, hany] at h
  simp at h

/-- Round trip for identifiers built from valid parts: rendering and
re-parsing is the identity provided the localpart is colon-free and the
domain passes the server-name grammar. -/
theorem from_str_toStr {pre : Char} (id : Mxid pre)
    (hd : domainValid id.domain.url = true)
    (hl : ':' ∉ id.localpart)
    (hv : Mxid.validate_parts pre id.localpart id.domain = .ok ()) :
    Mxid.from_str pre (Mxid.toStr id) = .ok id := by
  have hsplit := splitOnColon_append_colon id.localpart id.domain.url hl
  have hne := splitOnColon_ne_nil id.domain.url
  unfold Mxid.from_str Mxid.validate_all Mxid.toStr
  simp only [List.cons_append]
  rw [if_neg (by simp)]
  rw [hsplit]
  cases hsp : splitOnColon id.domain.url with
  | nil => exact absurd hsp hne
  | cons p ps =>
    have hjoin : joinColon (p :: ps) = id.domain.url := by
      rw [← hsp]; exact joinColon_splitOnColon id.domain.url
    simp only [List.isEmpty_cons, Bool.false_eq_true, if_false, hjoin,
      Domain.from_str, if_pos hd]
    have hdom : (⟨id.domain.url⟩ : Domain) = id.domain := rfl
    rw [hdom, hv]

/-- Rendering is injective on identifiers that round trip. -/
theorem toStr_inj {pre : Char} (a b : Mxid pre)
    (ha : Mxid.from_str pre (Mxid.toStr a) = .ok a)
    (hb : Mxid.from_str pre (Mxid.toStr b) = .ok b)
    (h : Mxid.toStr a = Mxid.toStr b) : a = b := by
  rw [h, hb] at ha
  injection ha with h2
  exact h2.symm

/-! ## Association-list model of HashMap -/

/-- HashMap lookup, on an association-list model. -/
def assocGet [DecidableEq α] (k : α) : List (α × β) → Option β
  | [] => none
  | (k2, v) :: rest => if k2 = k then some v else assocGet k rest

/-- HashMap insert: replace the binding if the key is present, else add it. -/
def assocIns [DecidableEq α] (k : α) (v : β) : List (α × β) → List (α × β)
  | [] => [(k, v)]
  | (k2, v2) :: rest =>
    if k2 = k then (k, v) :: rest else (k2, v2) :: assocIns k v rest

/-- HashMap remove. -/
def assocDel [DecidableEq α] (k : α) : List (α × β) → List (α × β)
  | [] => []
  | (k2, v2) :: rest =>
    if k2 = k then rest else (k2, v2) :: assocDel k rest

theorem assocGet_ins_self [DecidableEq α] (k : α) (v : β) (m : List (α × β)) :
    assocGet k (assocIns k v m) = some v := by
  induction m with
  | nil => simp [assocGet, assocIns]
  | cons p rest ih =>
    obtain ⟨k2, v2⟩ := p
    simp only [assocIns]
    by_cases h : k2 = k
    · simp [h, assocGet]
    · simp [h, assocGet, ih]

theorem assocGet_ins_other [DecidableEq α] (k k2 : α) (v : β) (m : List (α × β))
    (h : k2 ≠ k) : assocGet k2 (assocIns k v m) = assocGet k2 m := by
  have hk : k ≠ k2 := fun he => h he.symm
  induction m with
  | nil => simp [assocGet, assocIns, hk]
  | cons p rest ih =>
    obtain ⟨k3, v3⟩ := p
    simp only [assocIns]
    by_cases h3 : k3 = k
    · subst h3
      simp only [if_pos rfl, assocGet, if_neg hk, if_neg hk]
    · simp only [if_neg h3, assocGet]
      by_cases h4 : k3 = k2
      · simp [h4]
      · simp [h4, ih]

/-! ## Room events and power levels (src/events/room.rs) -/

/-- Rust `RoomVersion` (src/events/room.rs). -/
inductive RoomVersion where
  | V4
  | Unsupported
deriving DecidableEq, Repr

/-- Rust `Membership` (src/events/room.rs); the source name collides with a
core Lean class. -/
inductive RoomMembership where
  | Invite
  | Join
  | Knock
  | Leave
  | Ban
deriving DecidableEq, Repr

/-- Rust `JoinRule` (src/events/room.rs). -/
inductive JoinRule where
  | Public
  | Knock
  | Invite
  | Private
deriving DecidableEq, Repr

/-- Rust `JoinRules` (src/events/room.rs, content of m.room.join_rules). -/
structure JoinRules where
  join_rule : JoinRule
deriving DecidableEq, Repr

/-- Rust `Member` (src/events/room.rs, content of m.room.member). -/
structure Member where
  avatar_url : Option Str
  displayname : Option Str
  membership : RoomMembership
  is_direct : Option Bool
deriving DecidableEq, Repr

/-- Rust `Notifications` (src/events/room.rs). -/
structure Notifications where
  room : Nat
deriving DecidableEq, Repr

/-- Rust `PowerLevels` (src/events/room.rs, content of m.room.power_levels).
The two HashMaps are modelled as association lists. -/
structure PowerLevels where
  ban : Option Nat
  invite : Option Nat
  kick : Option Nat
  redact : Option Nat
  events : List (Str × Nat)
  events_default : Option Nat
  state_default : Option Nat
  users : List (MatrixId × Nat)
  users_default : Option Nat
  notifications : Option Notifications
deriving DecidableEq, Repr

/-- Rust `PowerLevels::no_event_default_levels` (src/events/room.rs): the
implicit levels when a room has no power-levels event; state_default is 0 and
the creator holds 100. -/
def PowerLevels.no_event_default_levels (room_creator : MatrixId) : PowerLevels where
  ban := some 50
  invite := some 50
  kick := some 50
  redact := some 50
  events := []
  events_default := some 0
  state_default := some 0
  users := [(room_creator, 100)]
  users_default := some 0
  notifications := none

/-- Rust `PowerLevels::ban` accessor (src/events/room.rs). -/
def PowerLevels.ban_level (pl : PowerLevels) : Nat := pl.ban.getD 50

/-- Rust `PowerLevels::invite` accessor (src/events/room.rs). -/
def PowerLevels.invite_level (pl : PowerLevels) : Nat := pl.invite.getD 50

/-- Rust `PowerLevels::kick` accessor (src/events/room.rs). -/
def PowerLevels.kick_level (pl : PowerLevels) : Nat := pl.kick.getD 50

/-- Rust `PowerLevels::redact` accessor (src/events/room.rs).  The source
reads `self.kick.unwrap_or(50)` — it consults the kick field, not the redact
field. -/
def PowerLevels.redact_level (pl : PowerLevels) : Nat := pl.kick.getD 50

/-- Rust `PowerLevels::events_default` accessor (src/events/room.rs). -/
def PowerLevels.events_default_level (pl : PowerLevels) : Nat := pl.events_default.getD 0

/-- Rust `PowerLevels::state_default` accessor (src/events/room.rs). -/
def PowerLevels.state_default_level (pl : PowerLevels) : Nat := pl.state_default.getD 50

/-- Rust `PowerLevels::users_default` accessor (src/events/room.rs). -/
def PowerLevels.users_default_level (pl : PowerLevels) : Nat := pl.users_default.getD 0

/-- Rust `PowerLevels::get_user_level` (src/events/room.rs). -/
def PowerLevels.get_user_level (pl : PowerLevels) (user_id : MatrixId) : Nat :=
  (assocGet user_id pl.users).getD (pl.users_default.getD 0)

/-- Rust `PowerLevels::get_event_level` (src/events/room.rs). -/
def PowerLevels.get_event_level (pl : PowerLevels) (event_type : Str)
    (is_state_event : Bool) : Nat :=
  (assocGet event_type pl.events).getD
    (if is_state_event then pl.state_default.getD 50 else pl.events_default.getD 0)

/-- Rust `Default for PowerLevels` (src/events/room.rs): the defaults used for
an explicit but empty power-levels event (ban/invite/kick/redact 50,
events_default 0, state_default 50, users_default 50). -/
def PowerLevels.default_levels : PowerLevels where
  ban := some 50
  invite := some 50
  kick := some 50
  redact := some 50
  events := []
  events_default := some 0
  state_default := some 50
  users := []
  users_default := some 50
  notifications := none

/-- Rust `Create` (src/events/room.rs, content of m.room.create); the
`predecessor` and catch-all `extra` fields are not consulted by any modelled
code path and are omitted. -/
structure CreateContent where
  creator : MatrixId
  room_version : Option RoomVersion
deriving DecidableEq, Repr

/-- Modelled from the spec: the `EventContent` tagged union (its defining
module src/events/mod.rs is absent from the sources; §3 lists the variants:
Create, Member, PowerLevels, JoinRules, HistoryVisibility, GuestAccess, Name,
Topic, Redaction, or opaque/custom).  Variants not consulted by the modelled
code paths are collapsed into `other`, which carries the event type string. -/
inductive EventContent where
  | create (c : CreateContent)
  | member (m : Member)
  | powerLevels (p : PowerLevels)
  | joinRules (j : JoinRules)
  | other (ty : Str)
deriving DecidableEq, Repr

/-- The wire event type string of a content value (spec §3 variant tags). -/
def EventContent.eventType : EventContent → Str
  | .create _ => "m.room.create".data
  | .member _ => "m.room.member".data
  | .powerLevels _ => "m.room.power_levels".data
  | .joinRules _ => "m.room.join_rules".data
  | .other ty => ty

/-- Whether a content value is the room-creating variant (used by
`add_pdus`, src/storage/mem.rs). -/
def EventContent.isCreate : EventContent → Bool
  | .create _ => true
  | _ => false

/-! ## Storage data model (src/storage/mem.rs)

The trait module src/storage/mod.rs is absent from the sources; the shapes it
declares (`StoredPdu`, `EventQuery`, `QueryType`, `Batch`, `ErrorKind`) are
reconstructed from their uses in src/storage/mem.rs and the spec (§3, §4.3,
§6, §7). -/

/-- Modelled from the spec (§7 error taxonomy) and uses in src/storage/mem.rs:
the error kinds of the missing src/error.rs. -/
inductive ErrorKind where
  | RoomNotFound
  | UserNotFound
  | UsernameTaken
  | NotFound
  | TxnIdExists
  | Forbidden
  | MissingToken
  | UnknownToken
  | Unimplemented
  | BadJson (msg : Str)
deriving DecidableEq, Repr

/-- Modelled from the spec (§3 Event/PDU) and the accessor surface of
`VersionedPdu` (src/events/room_version/mod.rs): one stored event node.  The
event id is derived upstream (content addressing); the in-memory store treats
it as an opaque stored string, which is how it is modelled here. -/
structure StoredPdu where
  event_content : EventContent
  room_id : RoomId
  sender : MatrixId
  state_key : Option Str
  origin_server_ts : Int
  prev_events : List Str
  auth_events : List Str
  depth : Int
  event_id : Str
deriving DecidableEq, Repr

/-- Ephemeral JSON payloads stored per room: either an opaque blob or the
serialized `Typing` set computed on read (src/storage/mem.rs,
`get_all_ephemeral`). -/
inductive JsonV where
  | raw (s : Str)
  | typing (user_ids : List MatrixId)
deriving DecidableEq, Repr

/-- Rust `Room` (src/storage/mem.rs).  The broadcast channel `notify_send` has
no persistent state worth modelling; write operations instead report the list
of rooms whose channel they signalled. -/
structure Room where
  events : List StoredPdu
  ephemeral : List (Str × JsonV)
  typing : List (MatrixId × Nat)
deriving DecidableEq, Repr

/-- Rust `Room::new` (src/storage/mem.rs). -/
def Room.new : Room := ⟨[], [], []⟩

/-- Rust `UserProfile` (declared in the missing src/storage/mod.rs; fields
from its uses in src/storage/mem.rs). -/
structure UserProfile where
  avatar_url : Option Str
  displayname : Option Str
  status : Option Str
deriving DecidableEq, Repr

/-- Rust `User` (src/storage/mem.rs). Account data values are opaque blobs. -/
structure User where
  username : Str
  password_hash : Str
  profile : UserProfile
  account_data : List (Str × JsonV)
deriving DecidableEq, Repr

/-- Modelled from the spec (§3 Batch / Sync Cursor): room id → last-delivered
timeline index, plus the set of rooms whose invite was already delivered.
Declared in the missing src/storage/mod.rs. -/
structure Batch where
  rooms : List (RoomId × Nat)
  invites : List RoomId
deriving DecidableEq, Repr

/-- The `Default` batch (used by `sync` when the cursor is absent/unknown). -/
def Batch.default : Batch := ⟨[], []⟩

/-- Rust `MemStorage` (src/storage/mem.rs).  Access tokens (Uuid) are opaque
numbers. -/
structure MemStorage where
  rooms : List (RoomId × Room)
  users : List User
  access_tokens : List (Nat × Str)
  batches : List (Str × Batch)
  txn_ids : List (Nat × List Str)
deriving DecidableEq, Repr

/-- Rust `QueryType` (declared in the missing src/storage/mod.rs; shape from
its uses in src/storage/mem.rs and src/client_api/room_events.rs and the spec
§6 query descriptor). -/
inductive QueryType where
  | timeline (from_ : Nat) (to_ : Option Nat)
  | state (at_ : Option Nat)
deriving DecidableEq, Repr

/-- Rust `QueryType::is_timeline`. -/
def QueryType.is_timeline : QueryType → Bool
  | .timeline _ _ => true
  | .state _ => false

/-- Rust `QueryType::is_state`. -/
def QueryType.is_state : QueryType → Bool
  | .timeline _ _ => false
  | .state _ => true

/-- Rust `EventQuery` (declared in the missing src/storage/mod.rs; fields from
its construction sites in src/client_api/room_events.rs and the spec §6).
The JSON-subset containment filter is kept abstract as a predicate. -/
structure EventQuery where
  room_id : RoomId
  query_type : QueryType
  senders : List MatrixId
  not_senders : List MatrixId
  types : List Str
  not_types : List Str
  contains_json : Option (StoredPdu → Bool)

/-- Modelled from the spec (§4.3: "optional filters: explicit sender
allow/deny lists, explicit type allow/deny lists, and an arbitrary
JSON-subset containment filter"): the filter predicate `EventQuery::matches`
whose definition lives in the missing src/storage/mod.rs.  An empty allow
list places no restriction. -/
def EventQuery.matches (q : EventQuery) (pdu : StoredPdu) : Bool :=
  (q.senders.isEmpty || decide (pdu.sender ∈ q.senders))
  && !decide (pdu.sender ∈ q.not_senders)
  && (q.types.isEmpty || decide (pdu.event_content.eventType ∈ q.types))
  && !decide (pdu.event_content.eventType ∈ q.not_types)
  && (match q.contains_json with | none => true | some f => f pdu)

/-- Rust `EventQueryResult` (super::EventQueryResult, from the missing
src/storage/mod.rs; fields from its construction in `query_pdus`). -/
structure EventQueryResult where
  events : List StoredPdu
  timeline_end : Nat
deriving DecidableEq, Repr

/-! ## Storage operations (src/storage/mem.rs) -/

/-- One iteration of the `add_pdus` loop (src/storage/mem.rs 205–214): a
Create content (re)inserts a fresh `Room` under the pdu's room id, then the
pdu is pushed onto that room's event vector; a missing room yields
`RoomNotFound`. -/
def addPduStep (rooms : List (RoomId × Room)) (pdu : StoredPdu) :
    Except ErrorKind (List (RoomId × Room)) :=
  let rooms2 := if pdu.event_content.isCreate then assocIns pdu.room_id Room.new rooms
                else rooms
  match assocGet pdu.room_id rooms2 with
  | none => .error .RoomNotFound
  | some room =>
    .ok (assocIns pdu.room_id { room with events := room.events ++ [pdu] } rooms2)

/-- The `add_pdus` loop over the room table.  The Rust loop mutates the store
under the write lock and propagates the first error with `?`, so mutations
already applied survive an error. -/
def addPdusGo (rooms : List (RoomId × Room)) : List StoredPdu →
    List (RoomId × Room) × Option ErrorKind
  | [] => (rooms, none)
  | pdu :: rest =>
    match addPduStep rooms pdu with
    | .error e => (rooms, some e)
    | .ok rooms2 => addPdusGo rooms2 rest

/-- Rust `add_pdus` (src/storage/mem.rs 203–216).  The second component of the
result is the list of rooms whose notify channel the operation signalled: the
source contains no `notify_send.send` call on this path, so it is always
empty. -/
def MemStorage.add_pdus (st : MemStorage) (pdus : List StoredPdu) :
    (MemStorage × List RoomId) × Option ErrorKind :=
  let (rooms2, err) := addPdusGo st.rooms pdus
  (({ st with rooms := rooms2 }, []), err)

/-- Rust slice indexing `events.get(from..=to)` on vectors: `Some` of the
subslice when `from ≤ to + 1` and `to < len`, else `None` (no clamping). -/
def sliceInclusive (l : List α) (f t : Nat) : Option (List α) :=
  if f > t + 1 ∨ t + 1 > l.length then none
  else some ((l.drop f).take (t + 1 - f))

/-- Rust `query_pdus` (src/storage/mem.rs 239–313).

`st_after` models the store as re-read after the wake signal in the
`wait` branch (the source drops the read lock, awaits `recv`, and re-locks);
on the non-waiting path it is not consulted.  When the room has no events and
the bound is absent, the source computes `events.len() - 1` on `usize`, which
underflows (a panic in debug builds; in release the wrapped bound makes the
slice lookup fail and the result is empty) — `Nat` truncated subtraction
yields the same empty result.  The state-mode deduplication block of the
source is a reverse immediately followed by a reverse (its `retain` is
commented out), and it sits after the wait branch, which only timeline-mode
queries reach. -/
def MemStorage.query_pdus (st : MemStorage) (query : EventQuery) (wait : Bool)
    (st_after : MemStorage) : Except ErrorKind EventQueryResult :=
  let ft : Nat × Option Nat :=
    match query.query_type with
    | .timeline f t => (f, t)
    | .state a => (0, a)
  match assocGet query.room_id st.rooms with
  | none => .error .RoomNotFound
  | some room =>
    let t := ft.2.getD (room.events.length - 1)
    let ret := ((sliceInclusive room.events ft.1 t).getD []).filter query.matches
    if wait && ret.isEmpty && query.query_type.is_timeline then
      match assocGet query.room_id st_after.rooms with
      | none => .error .RoomNotFound
      | some room2 =>
        let t2 := room2.events.length - 1
        let ret2 := ret ++ ((sliceInclusive room2.events t t2).getD []).filter query.matches
        let ret3 := if query.query_type.is_state then ret2.reverse.reverse else ret2
        .ok ⟨ret3, t2⟩
    else
      .ok ⟨ret, t⟩

/-- Rust `get_pdu` (src/storage/mem.rs 320–328). -/
def MemStorage.get_pdu (st : MemStorage) (room_id : RoomId) (event_id : Str) :
    Option StoredPdu :=
  (assocGet room_id st.rooms).bind
    (fun r => r.events.find? (fun e => e.event_id == event_id))

/-- Rust `get_all_ephemeral` (src/storage/mem.rs 330–348): clones the stored
blobs and overlays the typing set computed on read — entries whose expiry is
strictly after `now` are the typing users. -/
def MemStorage.get_all_ephemeral (st : MemStorage) (room_id : RoomId) (now : Nat) :
    Except ErrorKind (List (Str × JsonV)) :=
  match assocGet room_id st.rooms with
  | none => .error .RoomNotFound
  | some room =>
    let user_ids := (room.typing.filter (fun p => p.2 > now)).map (·.1)
    .ok (assocIns "m.typing".data (.typing user_ids) room.ephemeral)

/-- Rust `set_ephemeral` (src/storage/mem.rs 368–386): stores or removes the
blob, then signals the room's notify channel (second component: rooms whose
channel was signalled). -/
def MemStorage.set_ephemeral (st : MemStorage) (room_id : RoomId)
    (event_type : Str) (content : Option JsonV) :
    Except ErrorKind (MemStorage × List RoomId) :=
  match assocGet room_id st.rooms with
  | none => .error .RoomNotFound
  | some room =>
    let room2 :=
      match content with
      | some c => { room with ephemeral := assocIns event_type c room.ephemeral }
      | none => { room with ephemeral := assocDel event_type room.ephemeral }
    .ok ({ st with rooms := assocIns room_id room2 st.rooms }, [room_id])

/-- Rust `set_typing` (src/storage/mem.rs 388–408): inserts an expiry entry
(`now + timeout`) or removes the user, then signals the room's notify channel
(second component: rooms whose channel was signalled). -/
def MemStorage.set_typing (st : MemStorage) (room_id : RoomId)
    (user_id : MatrixId) (is_typing : Bool) (now timeout : Nat) :
    Except ErrorKind (MemStorage × List RoomId) :=
  match assocGet room_id st.rooms with
  | none => .error .RoomNotFound
  | some room =>
    let room2 :=
      if is_typing then { room with typing := assocIns user_id (now + timeout) room.typing }
      else { room with typing := assocDel user_id room.typing }
    .ok ({ st with rooms := assocIns room_id room2 st.rooms }, [room_id])

/-- Rust `create_user` (src/storage/mem.rs 101–119).  The argon2 hashing with
a random salt is external; it is abstracted as the `hash` oracle. -/
def MemStorage.create_user (st : MemStorage) (hash : Str → Str)
    (username password : Str) : Except ErrorKind MemStorage :=
  let password_hash := hash password
  if st.users.any (fun u => u.username == username) then
    .error .UsernameTaken
  else
    .ok { st with
          users := st.users ++
            [{ username := username, password_hash := password_hash,
               profile := ⟨none, none, none⟩, account_data := [] }] }

/-- Rust `create_access_token` (src/storage/mem.rs 135–143).  The random Uuid
is external; it is passed in as `token`. -/
def MemStorage.create_access_token (st : MemStorage) (token : Nat)
    (username : Str) : Except ErrorKind (MemStorage × Nat) :=
  if !st.users.any (fun u => u.username == username) then
    .error .UserNotFound
  else
    .ok ({ st with access_tokens := assocIns token username st.access_tokens }, token)

/-- Rust `get_batch` (src/storage/mem.rs 437–440). -/
def MemStorage.get_batch (st : MemStorage) (id : Str) : Option Batch :=
  assocGet id st.batches

/-- Rust `set_batch` (src/storage/mem.rs 442–446). -/
def MemStorage.set_batch (st : MemStorage) (id : Str) (batch : Batch) : MemStorage :=
  { st with batches := assocIns id batch st.batches }

/-! ## Authorization engine (src/util/storage.rs) -/

/-- Rust `AddEventError` (src/util/storage.rs). -/
inductive AddEventError where
  | UserNotInRoom
  | UserBanned
  | UserNotInvited
  | RoomNotFound
  | InsufficientPowerLevel
  | InvalidEvent (msg : Str)
deriving DecidableEq, Repr

/-- Message of the `InvalidEvent` raised when a member event has no state key
(src/util/storage.rs 138). -/
def noStateKeyMsg : Str := "no state key in m.room.member event".data

/-- Message of the `InvalidEvent` raised when a join names someone other than
the sender (src/util/storage.rs 152–154). -/
def joinOtherMsg : Str :=
  "user tried to set someone else's membership to join".data

/-- Display rendering of `MxidError` (src/util/mxid.rs displaydoc attributes;
texts abbreviated, punctuation-only differences). -/
def MxidError.displayMsg : MxidError → Str
  | .TooLong => "A Matrix ID can only be 255 characters long".data
  | .InvalidChar => "A Matrix ID can only have lowercase letters, numbers, and -_.=/".data
  | .NoLeadingChar c => "An ID must begin ".data ++ [c]
  | .WrongNumberOfColons => "A Matrix ID must contain exactly one colon.".data
  | .InvalidDomain => "A Matrix ID must contain a valid domain name.".data

/-- Modelled from the spec (§6 event wire shape) and the uses in
src/util/storage.rs: the client-facing `Event` of the missing
src/events/mod.rs, restricted to the fields `validate_member_event` consults
(content, sender, state key). -/
structure Event where
  event_content : EventContent
  sender : MatrixId
  state_key : Option Str
deriving Repr

/-- Rust `validate_member_event` (src/util/storage.rs 130–212), as a pure
decision function.  The two storage reads are abstracted: `get_membership`
stands for `db.get_membership(·, room_id)` and `join_rules_event` for the
extracted content of `db.get_state_event(room_id, "m.room.join_rules", "")`.
`none` models the panics: the Knock arm is `unimplemented!()` and a
non-member content panics. -/
def validate_member_event (get_membership : MatrixId → Option RoomMembership)
    (event : Event) (join_rules_event : Option JoinRules)
    (power_levels : PowerLevels) : Option (Except AddEventError Unit) :=
  let sender_membership := get_membership event.sender
  match event.state_key with
  | none => some (.error (.InvalidEvent noStateKeyMsg))
  | some sk =>
    match Mxid.from_str '@' sk with
    | .error e => some (.error (.InvalidEvent e.displayMsg))
    | .ok affected_user =>
      let prev_membership := get_membership affected_user
      match event.event_content with
      | .member content =>
        match content.membership with
        | .Join =>
          if affected_user ≠ event.sender then
            some (.error (.InvalidEvent joinOtherMsg))
          else
            match prev_membership with
            | some .Join => some (.ok ())
            | some .Invite => some (.ok ())
            | some .Ban => some (.error .UserBanned)
            | _ =>
              let is_public :=
                match join_rules_event with
                | some jr => jr.join_rule = JoinRule.Public
                | none => false
              if !is_public then some (.error .UserNotInvited)
              else some (.ok ())
        | .Leave =>
          if sender_membership ≠ some .Join then
            some (.error .UserNotInRoom)
          else if event.state_key ≠ some event.sender.toStr then
            if power_levels.get_user_level event.sender < power_levels.kick_level then
              some (.error .InsufficientPowerLevel)
            else some (.ok ())
          else some (.ok ())
        | .Ban =>
          if sender_membership ≠ some .Join then
            some (.error .UserNotInRoom)
          else if power_levels.get_user_level event.sender < power_levels.ban_level then
            some (.error .InsufficientPowerLevel)
          else some (.ok ())
        | .Invite =>
          if sender_membership ≠ some .Join then
            some (.error .UserNotInRoom)
          else if power_levels.get_user_level event.sender < power_levels.invite_level then
            some (.error .InsufficientPowerLevel)
          else some (.ok ())
        | .Knock => none
      | _ => none

/-- The §4.1 membership transition table, stated directly from the spec: the
authorization decision as a function of the target's prior membership, the
sender's membership, whether the target is the sender, the join rule, the
sender's power and the kick/ban/invite thresholds. -/
def membershipTable (prevM senderM : Option RoomMembership) (selfT : Bool)
    (joinRule : Option JoinRule) (senderPower kickT banT inviteT : Nat) :
    RoomMembership → Except AddEventError Unit
  | .Join =>
    if !selfT then .error (.InvalidEvent joinOtherMsg)
    else if prevM = some .Join ∨ prevM = some .Invite then .ok ()
    else if prevM = some .Ban then .error .UserBanned
    else if joinRule = some .Public then .ok ()
    else .error .UserNotInvited
  | .Leave =>
    if senderM ≠ some .Join then .error .UserNotInRoom
    else if selfT then .ok ()
    else if senderPower < kickT then .error .InsufficientPowerLevel
    else .ok ()
  | .Ban =>
    if senderM ≠ some .Join then .error .UserNotInRoom
    else if senderPower < banT then .error .InsufficientPowerLevel
    else .ok ()
  | .Invite =>
    if senderM ≠ some .Join then .error .UserNotInRoom
    else if senderPower < inviteT then .error .InsufficientPowerLevel
    else .ok ()
  | .Knock => .ok ()

/-- The one step of the auth-event scan of `get_sender_power_level`
(src/util/storage.rs 92–110): the first power-levels content wins; a create
content is remembered (later ones overwrite); with no power-levels event the
creator gets 100 and everyone else 0.  `none` models the `expect` panics on a
missing pdu or a missing create. -/
def senderPowerScan (st : MemStorage) (room_id : RoomId) (sender : MatrixId) :
    List Str → Option CreateContent → Option Nat
  | [], createc =>
    match createc with
    | none => none
    | some c => some (if sender = c.creator then 100 else 0)
  | aid :: rest, createc =>
    match st.get_pdu room_id aid with
    | none => none
    | some ae =>
      match ae.event_content with
      | .powerLevels levels => some (levels.get_user_level sender)
      | .create c => senderPowerScan st room_id sender rest (some c)
      | _ => senderPowerScan st room_id sender rest createc

/-- Rust `get_sender_power_level` (src/util/storage.rs 89–111). -/
def MemStorage.get_sender_power_level (st : MemStorage) (room_id : RoomId)
    (event_id : Str) : Option Nat :=
  match st.get_pdu room_id event_id with
  | none => none
  | some event => senderPowerScan st room_id event.sender event.auth_events none

/-! ## Sync coordinator (src/client_api/room_events.rs, `sync`) -/

/-- Modelled from the spec (§6 event wire shape): `into_client_format` of the
missing src/events/room_version/v4.rs, restricted to the fields the modelled
`Event` carries (graph-internal fields are never exposed to clients). -/
def toClientEvent (p : StoredPdu) : Event :=
  ⟨p.event_content, p.sender, p.state_key⟩

/-- Rust `StrippedState` (src/client_api/room_events.rs 124–129). -/
structure StrippedState where
  content : EventContent
  state_key : Str
  sender : MatrixId
deriving Repr

/-- Rust `JoinedRoom` (src/client_api/room_events.rs 63–70), restricted to
the delta-bearing fields (summary counts, state, timeline, ephemeral). -/
structure JoinedRoom where
  joined_member_count : Nat
  invited_member_count : Nat
  state : List Event
  timeline : List Event
  ephemeral : List (Str × JsonV)
deriving Repr

/-- Rust `InvitedRoom` (src/client_api/room_events.rs 114–121). -/
structure InvitedRoom where
  invite_state : List StrippedState
deriving Repr

/-- Rust `SyncResponse`/`Rooms` (src/client_api/room_events.rs 48–61):
next_batch plus the three per-membership room maps (the leave map is never
populated by `sync`). -/
structure SyncResponse where
  next_batch : Str
  join : List (RoomId × JoinedRoom)
  invite : List (RoomId × InvitedRoom)
  leave : List (RoomId × Unit)
deriving Repr

/-- Observable actions of one `sync` call, in program order: persisting a
cursor, sleeping for the request timeout, or entering the
timer-versus-wake-queries race (a suspension whose outcome depends on
concurrent writes and is left unresolved here). -/
inductive SyncAction where
  | setBatch (id : Str) (b : Batch)
  | sleep (ms : Nat)
  | raceWait (timeoutMs : Nat) (waiting : List RoomId)
deriving Repr

/-- Outcome of a fallible, possibly panicking handler. -/
inductive RunResult (α : Type) where
  | ok (a : α)
  | err (e : ErrorKind)
  | panicked
deriving Repr

/-- The stripped-invite payload (src/client_api/room_events.rs 309–318):
each full-state event is mapped with `e.state_key.unwrap()`; a state event
without a state key panics (`none`). -/
def strippedFromState : List Event → Option (List StrippedState)
  | [] => some []
  | e :: rest =>
    match e.state_key with
    | none => none
    | some sk =>
      (strippedFromState rest).map (fun l => ⟨e.event_content, sk, e.sender⟩ :: l)

/-- Accumulator of the membership loop of `sync`
(src/client_api/room_events.rs 244–329). -/
structure SyncAcc where
  batch : Batch
  join : List (RoomId × JoinedRoom)
  invite : List (RoomId × InvitedRoom)
  something_happened : Bool

/-- The membership loop of `sync` (src/client_api/room_events.rs 245–329).
`get_full_state` and `counts` stand for the storage calls `get_full_state`
and `get_room_member_counts` whose definitions live in the missing
src/storage/mod.rs (state resolution); `now` feeds `get_all_ephemeral`.
Join: drop any pending invite flag, query the timeline from the cursor
position, advance the cursor to `progress + 1`, optionally pull full state,
record whether anything happened, and build the joined-room delta.
Invite not yet delivered: build the stripped payload and mark it delivered.
Everything else: skip. -/
def syncRoomsGo (st : MemStorage) (full_state : Bool)
    (get_full_state : RoomId → List Event) (counts : RoomId → Nat × Nat)
    (now : Nat) : List (RoomId × RoomMembership) → SyncAcc → RunResult SyncAcc
  | [], acc => .ok acc
  | (room_id, m) :: rest, acc =>
    match m with
    | .Join =>
      let batch1 := { acc.batch with invites := acc.batch.invites.erase room_id }
      let from_ := (assocGet room_id batch1.rooms).getD 0
      match st.query_pdus ⟨room_id, .timeline from_ none, [], [], [], [], none⟩ false st with
      | .error e => .err e
      | .ok qr =>
        let events := qr.events.map toClientEvent
        let progress := qr.timeline_end
        let batch2 := { batch1 with rooms := assocIns room_id (progress + 1) batch1.rooms }
        let state_events := if full_state then get_full_state room_id else []
        let sh := acc.something_happened || !(events.isEmpty && state_events.isEmpty)
        let (joined, invited) := counts room_id
        match st.get_all_ephemeral room_id now with
        | .error e => .err e
        | .ok eph =>
          syncRoomsGo st full_state get_full_state counts now rest
            { batch := batch2,
              join := assocIns room_id ⟨joined, invited, state_events, events, eph⟩ acc.join,
              invite := acc.invite,
              something_happened := sh }
    | .Invite =>
      if decide (room_id ∈ acc.batch.invites) then
        syncRoomsGo st full_state get_full_state counts now rest acc
      else
        match strippedFromState (get_full_state room_id) with
        | none => .panicked
        | some evs =>
          syncRoomsGo st full_state get_full_state counts now rest
            { acc with
              invite := assocIns room_id ⟨evs⟩ acc.invite,
              batch := { acc.batch with invites := acc.batch.invites ++ [room_id] } }
    | _ => syncRoomsGo st full_state get_full_state counts now rest acc

/-- Rust `sync` (src/client_api/room_events.rs 215–403), after
authentication: resolve the cursor (absent/unknown behaves as the default),
compute memberships over all known rooms, run the membership loop, then
either (a) something happened: persist the advanced cursor and respond at
once, (b) the caller is joined to no room: persist the advanced cursor,
sleep for the request timeout, and respond with the (empty-join) delta, or
(c) enter the race of the timer against one wait-capable query per joined
room, which this model leaves as a `raceWait` marker (its response depends
on concurrent writes).  The returned actions are in program order, and the
final `MemStorage` reflects the cursor persisted on paths (a) and (b). -/
def sync (st : MemStorage) (get_membership : RoomId → Option RoomMembership)
    (get_full_state : RoomId → List Event) (counts : RoomId → Nat × Nat)
    (now : Nat) (next_batch_id : Str) (since : Option Str) (full_state : Bool)
    (timeout : Nat) : RunResult (List SyncAction × SyncResponse × MemStorage) :=
  match syncRoomsGo st full_state get_full_state counts now
      ((st.rooms.map (·.1)).filterMap (fun r => (get_membership r).map (fun m => (r, m))))
      ⟨(st.get_batch (since.getD "empty".data)).getD Batch.default, [], [], false⟩ with
  | .panicked => .panicked
  | .err e => .err e
  | .ok acc =>
    let res : SyncResponse := ⟨next_batch_id, acc.join, acc.invite, []⟩
    if acc.something_happened then
      .ok ([.setBatch next_batch_id acc.batch], res,
           st.set_batch next_batch_id acc.batch)
    else
      let joinRooms :=
        (((st.rooms.map (·.1)).filterMap
            (fun r => (get_membership r).map (fun m => (r, m)))).filter
          (fun p => decide (p.2 = .Join))).map (·.1)
      if joinRooms.isEmpty then
        .ok ([.setBatch next_batch_id acc.batch, .sleep timeout], res,
             st.set_batch next_batch_id acc.batch)
      else
        .ok ([.raceWait timeout joinRooms], res, st)

/-! ## Registration (src/client_api/auth.rs, `register`) -/

/-- The user-creating slice of Rust `register` (src/client_api/auth.rs
258–270) for a request that carries a password but no username: the user id
comes from `MatrixId::new_with_random_local`, and `create_user` is called
with its localpart.  `hash` abstracts argon2 as in `create_user`; id
construction failure maps to `BadJson` with the rendered mxid error. -/
def registerNoUsername (st : MemStorage) (hash : Str → Str) (domain : Domain)
    (password : Str) : Except ErrorKind (MemStorage × MatrixId) :=
  match MatrixId.new_with_random_local domain with
  | .error e => .error (.BadJson e.displayMsg)
  | .ok user_id =>
    match st.create_user hash user_id.localpart password with
    | .error e => .error e
    | .ok st2 => .ok (st2, user_id)

/-! ## Concrete fixtures used by witnesses and counterexamples -/

deriving instance DecidableEq for Except

/-- A valid domain under the modelled server-name grammar. -/
def exDomain : Domain := ⟨"example.com".data⟩

/-- The user @alice:example.com. -/
def alice : MatrixId := ⟨exDomain, "alice".data⟩

/-- The user @bob:example.com. -/
def bob : MatrixId := ⟨exDomain, "bob".data⟩

/-- The room !aroom:example.com. -/
def roomA : RoomId := ⟨exDomain, "aroom".data⟩

/-- The room !broom:example.com. -/
def roomB : RoomId := ⟨exDomain, "broom".data⟩

/-- The m.room.create event of roomA, authored by alice. -/
def createPdu : StoredPdu where
  event_content := .create ⟨alice, some .V4⟩
  room_id := roomA
  sender := alice
  state_key := some "".data
  origin_server_ts := 0
  prev_events := []
  auth_events := []
  depth := 0
  event_id := "$create".data

/-- A message event in roomA from alice, authorized by the create event. -/
def msgAlice : StoredPdu where
  event_content := .other "m.room.message".data
  room_id := roomA
  sender := alice
  state_key := none
  origin_server_ts := 1
  prev_events := ["$create".data]
  auth_events := ["$create".data]
  depth := 1
  event_id := "$m1".data

/-- A message event in roomA from bob, authorized by the create event. -/
def msgBob : StoredPdu where
  event_content := .other "m.room.message".data
  room_id := roomA
  sender := bob
  state_key := none
  origin_server_ts := 2
  prev_events := ["$m1".data]
  auth_events := ["$create".data]
  depth := 2
  event_id := "$m2".data

/-- A further message event in roomA from bob. -/
def msgBob2 : StoredPdu where
  event_content := .other "m.room.message".data
  room_id := roomA
  sender := bob
  state_key := none
  origin_server_ts := 3
  prev_events := ["$m2".data]
  auth_events := ["$create".data]
  depth := 3
  event_id := "$m3".data

/-- A second m.room.create event for roomA (same room id, fresh event id). -/
def createPdu2 : StoredPdu where
  event_content := .create ⟨alice, some .V4⟩
  room_id := roomA
  sender := alice
  state_key := some "".data
  origin_server_ts := 4
  prev_events := []
  auth_events := []
  depth := 0
  event_id := "$create2".data

/-- A store holding roomA with three events. -/
def stA : MemStorage where
  rooms := [(roomA, ⟨[createPdu, msgAlice, msgBob], [], []⟩)]
  users := []
  access_tokens := []
  batches := []
  txn_ids := []

/-- The empty store. -/
def stEmpty : MemStorage := ⟨[], [], [], [], []⟩

/-- An explicit power-levels content with every field absent (what an
explicit but empty m.room.power_levels event deserializes to). -/
def emptyPowerLevels : PowerLevels := ⟨none, none, none, none, [], none, none, [], none, none⟩

/-- A power-levels content with an explicit redact threshold 10 and an
explicit kick threshold 70. -/
def plRedactTen : PowerLevels :=
  ⟨none, none, some 70, some 10, [], none, none, [], none, none⟩

/-! ## Claims -/

/-- Claim C7: the effective redact threshold should equal the explicit redact
field when present and 50 otherwise, independent of kick.  The code disagrees:
`PowerLevels::redact` reads the kick field, so with redact = 10 and kick = 70
the effective redact threshold is 70, and with redact = 10 and kick absent it
is 50 — the explicit redact field is never consulted. -/
theorem c7_redact_threshold_reads_kick :
    plRedactTen.redact = some 10 ∧
    plRedactTen.redact_level = 70 ∧
    ({ plRedactTen with kick := none } : PowerLevels).redact_level = 50 := by
  decide

/-- Claim C6: with no power-levels event in resolved state, the implicit
levels give the room creator 100 and every other user 0, with state_default 0
— distinct from the defaults of an explicit but empty power-levels event
(state_default 50, events_default 0, every user 0); and
`get_sender_power_level` on a room whose events carry no power-levels auth
event yields 100 for the creator and 0 for anyone else. -/
theorem c6_no_power_event_defaults (creator u : MatrixId) (hu : u ≠ creator) :
    (PowerLevels.no_event_default_levels creator).get_user_level creator = 100 ∧
    (PowerLevels.no_event_default_levels creator).get_user_level u = 0 ∧
    (PowerLevels.no_event_default_levels creator).state_default_level = 0 ∧
    emptyPowerLevels.state_default_level = 50 ∧
    emptyPowerLevels.events_default_level = 0 ∧
    emptyPowerLevels.get_user_level creator = 0 ∧
    stA.get_sender_power_level roomA "$m1".data = some 100 ∧
    stA.get_sender_power_level roomA "$m2".data = some 0 := by
  refine ⟨?_, ?_, rfl, by decide, by decide, ?_, by decide, by decide⟩
  · simp [PowerLevels.get_user_level, PowerLevels.no_event_default_levels, assocGet]
  · simp [PowerLevels.get_user_level, PowerLevels.no_event_default_levels, assocGet,
      Ne.symm hu]
  · simp [PowerLevels.get_user_level, emptyPowerLevels, assocGet]

/-- Witness for C6 at creator = alice, u = bob. -/
theorem c6_no_power_event_defaults_witness :
    (PowerLevels.no_event_default_levels alice).get_user_level alice = 100 ∧
    (PowerLevels.no_event_default_levels alice).get_user_level bob = 0 := by
  have h := c6_no_power_event_defaults alice bob (by decide)
  exact ⟨h.1, h.2.1⟩

/-- Claim C3: every completed event append should publish the room's wake
signal, as the ephemeral and typing write paths do.  The code disagrees:
`add_pdus` contains no `notify_send.send` call, so a successful append into
an existing room signals no channel, while `set_typing` and `set_ephemeral`
both signal the written room's channel. -/
theorem c3_append_publishes_no_wake_signal :
    (stA.add_pdus [msgBob2]).2 = none ∧
    (assocGet roomA (stA.add_pdus [msgBob2]).1.1.rooms).map (·.events.length) = some 4 ∧
    (stA.add_pdus [msgBob2]).1.2 = [] ∧
    Except.map (·.2) (stA.set_typing roomA alice true 0 1000) = .ok [roomA] ∧
    Except.map (·.2) (stA.set_ephemeral roomA "m.receipt".data (some (.raw "x".data)))
      = .ok [roomA] := by
  decide

/-- Claim C10: `MatrixId::new_with_random_local` always produces the fixed
localpart "todo-impl-me" (when it fits the length bound), so of two register
requests that omit a username against the same server, the first creates
@todo-impl-me:domain and the second fails with UsernameTaken. -/
theorem c10_random_localpart_constant (st : MemStorage) (hash hash2 : Str → Str)
    (domain : Domain) (password password2 : Str)
    (hlen : byteLen domain.url + 2 + byteLen "todo-impl-me".data ≤ 255)
    (hfree : ∀ u ∈ st.users, u.username ≠ "todo-impl-me".data) :
    MatrixId.new_with_random_local domain = .ok ⟨domain, "todo-impl-me".data⟩ ∧
    Except.map (·.2) (registerNoUsername st hash domain password)
      = .ok ⟨domain, "todo-impl-me".data⟩ ∧
    ∀ res, registerNoUsername st hash domain password = .ok res →
      registerNoUsername res.1 hash2 domain password2 = .error .UsernameTaken := by
  have hnew : MatrixId.new_with_random_local domain = .ok ⟨domain, "todo-impl-me".data⟩ := by
    unfold MatrixId.new_with_random_local Mxid.new_len_checked
    rw [if_neg (by omega)]
  have hany : st.users.any (fun u => u.username == "todo-impl-me".data) = false := by
    rw [List.any_eq_false]
    intro u hu
    simpa using hfree u hu
  have hcreate : st.create_user hash "todo-impl-me".data password
      = .ok { st with users := st.users ++
          [⟨"todo-impl-me".data, hash password, ⟨none, none, none⟩, []⟩] } := by
    unfold MemStorage.create_user
    rw [hany]
    simp
  have hreg : registerNoUsername st hash domain password
      = .ok ({ st with users := st.users ++
          [⟨"todo-impl-me".data, hash password, ⟨none, none, none⟩, []⟩] },
          ⟨domain, "todo-impl-me".data⟩) := by
    unfold registerNoUsername
    rw [hnew]
    simp only [hcreate]
  refine ⟨hnew, by rw [hreg]; rfl, ?_⟩
  intro res h
  rw [hreg] at h
  injection h with h2
  subst h2
  unfold registerNoUsername
  rw [hnew]
  unfold MemStorage.create_user
  simp

/-- Witness for C10 on the empty store over example.com. -/
theorem c10_random_localpart_constant_witness :
    MatrixId.new_with_random_local exDomain = .ok ⟨exDomain, "todo-impl-me".data⟩ ∧
    ∀ res, registerNoUsername stEmpty (fun s => s) exDomain "pw".data = .ok res →
      registerNoUsername res.1 (fun s => s) exDomain "pw".data
        = .error .UsernameTaken := by
  have h := c10_random_localpart_constant stEmpty (fun s => s) (fun s => s) exDomain
    "pw".data "pw".data (by decide) (by intro u hu; simp [stEmpty] at hu)
  exact ⟨h.1, h.2.2⟩

/-- The m.room.create event of roomB, authored by alice. -/
def createB : StoredPdu where
  event_content := .create ⟨alice, some .V4⟩
  room_id := roomB
  sender := alice
  state_key := some "".data
  origin_server_ts := 0
  prev_events := []
  auth_events := []
  depth := 0
  event_id := "$cb".data

/-- A first m.room.power_levels state event in roomB (state key ""). -/
def plPdu1 : StoredPdu where
  event_content := .powerLevels emptyPowerLevels
  room_id := roomB
  sender := alice
  state_key := some "".data
  origin_server_ts := 1
  prev_events := ["$cb".data]
  auth_events := ["$cb".data]
  depth := 1
  event_id := "$pl1".data

/-- A second m.room.power_levels state event in roomB (same type and state
key as the first, different content and id). -/
def plPdu2 : StoredPdu where
  event_content := .powerLevels plRedactTen
  room_id := roomB
  sender := alice
  state_key := some "".data
  origin_server_ts := 2
  prev_events := ["$pl1".data]
  auth_events := ["$cb".data]
  depth := 2
  event_id := "$pl2".data

/-- A store holding roomB with a create event and two power-levels events. -/
def stB : MemStorage where
  rooms := [(roomB, ⟨[createB, plPdu1, plPdu2], [], []⟩)]
  users := []
  access_tokens := []
  batches := []
  txn_ids := []

/-- A state-mode query over all of roomB. -/
def qStateB : EventQuery := ⟨roomB, .state (some 2), [], [], [], [], none⟩

/-- Claim C4: a State-mode query should return at most one event per
(type, state key) pair.  The code disagrees: the deduplicating `retain` in
`query_pdus` is commented out (and the reverse-filter-reverse block is
unreachable for state queries, which return earlier), so a state query over a
room containing two m.room.power_levels events with state key "" returns
both. -/
theorem c4_state_query_returns_duplicates :
    Except.map (·.events) (stB.query_pdus qStateB false stB)
      = .ok [createB, plPdu1, plPdu2] ∧
    plPdu1.event_content.eventType = plPdu2.event_content.eventType ∧
    plPdu1.state_key = plPdu2.state_key ∧
    plPdu1 ≠ plPdu2 := by
  decide

/-- A Timeline-mode query over roomA with explicit bounds from = 1, to = 2. -/
def qTimelineA : EventQuery := ⟨roomA, .timeline 1 (some 2), [], [], [], [], none⟩

/-- Claim C5 counterexample: with explicit bounds from = 1, to = 2 over a
three-event room, the claim's half-open range [1, 2) would return only the
event at index 1, but the code returns the events at indices 1 and 2 — the
event at index `to` is included. -/
theorem c5_counterexample_to_is_included :
    Except.map (·.events) (stA.query_pdus qTimelineA false stA)
      = .ok [msgAlice, msgBob] ∧
    (assocGet roomA stA.rooms).map (fun r => r.events[2]?) = some (some msgBob) ∧
    Except.map (·.timeline_end) (stA.query_pdus qTimelineA false stA) = .ok 2 ∧
    msgBob ≠ msgAlice := by
  decide

/-- Claim C2 counterexample: a sequence of three successful appends into one
room whose third pdu is a second Create loses the first two events — the
re-inserted `Room::new` replaces the room, so the queried timeline afterwards
is just the final Create, not the three appended events in order. -/
theorem c2_counterexample_second_create_wipes :
    (stEmpty.add_pdus [createPdu, msgAlice, createPdu2]).2 = none ∧
    (assocGet roomA (stEmpty.add_pdus [createPdu, msgAlice, createPdu2]).1.1.rooms).map
        (·.events) = some [createPdu2] ∧
    [createPdu2] ≠ [createPdu, msgAlice, createPdu2] := by
  decide

/-- Claim C5 (amended): for Timeline-mode queries with explicit bounds the
range of indices considered is the closed interval [from, to] — index `to`
itself is included — and when `to` is absent the range extends to the last
index of the room's timeline (its current end), with `timeline_end` reported
as that last index. -/
theorem c5_timeline_range_closed (st st2 : MemStorage) (q q2 : EventQuery)
    (room : Room) (f t f2 : Nat)
    (hq : q.query_type = .timeline f (some t))
    (hr : assocGet q.room_id st.rooms = some room)
    (hft : f ≤ t + 1) (ht : t < room.events.length)
    (hq2 : q2.query_type = .timeline f2 none)
    (hr2 : q2.room_id = q.room_id) :
    st.query_pdus q false st2
      = .ok ⟨((room.events.take (t + 1)).drop f).filter q.matches, t⟩ ∧
    st.query_pdus q2 false st2
      = .ok ⟨(room.events.drop f2).filter q2.matches, room.events.length - 1⟩ := by
  constructor
  · have hslice : sliceInclusive room.events f t
        = some ((room.events.drop f).take (t + 1 - f)) := by
      unfold sliceInclusive
      rw [if_neg (by omega)]
    unfold MemStorage.query_pdus
    rw [hq, hr]
    simp only [hslice, Option.getD_some, Bool.false_and, Bool.false_eq_true,
      if_false, List.drop_take]
  · have hsl2 : ((sliceInclusive room.events f2 (room.events.length - 1)).getD []).filter
        q2.matches = (room.events.drop f2).filter q2.matches := by
      unfold sliceInclusive
      by_cases hlen : room.events.length = 0
      · rw [if_pos (by omega)]
        rw [List.eq_nil_of_length_eq_zero hlen]
        simp
      · by_cases hf2 : f2 ≤ room.events.length
        · rw [if_neg (by omega), Option.getD_some]
          congr 1
          exact List.take_of_length_le (by simp; omega)
        · rw [if_pos (by omega)]
          rw [List.drop_eq_nil_of_le (by omega)]
          simp
    unfold MemStorage.query_pdus
    rw [hq2, hr2, hr]
    simp only [Option.getD_none, Bool.false_and, Bool.false_eq_true, if_false, hsl2]

/-- Witness for C5 at the three-event fixture room: an explicit query with
from = 0, to = 1 returns the events at indices 0 and 1, and an open-ended query
with from = 1 and `to` absent runs through index 2. -/
theorem c5_timeline_range_closed_witness :
    stA.query_pdus ⟨roomA, .timeline 0 (some 1), [], [], [], [], none⟩ false stA
      = .ok ⟨[createPdu, msgAlice], 1⟩ ∧
    stA.query_pdus ⟨roomA, .timeline 1 none, [], [], [], [], none⟩ false stA
      = .ok ⟨[msgAlice, msgBob], 2⟩ := by
  have h := c5_timeline_range_closed stA stA
    ⟨roomA, .timeline 0 (some 1), [], [], [], [], none⟩
    ⟨roomA, .timeline 1 none, [], [], [], [], none⟩
    ⟨[createPdu, msgAlice, msgBob], [], []⟩ 0 1 1 rfl (by decide) (by decide)
    (by decide) rfl rfl
  refine ⟨h.1.trans ?_, h.2.trans ?_⟩ <;> decide

theorem addPduStep_same_room (rooms : List (RoomId × Room)) (p : StoredPdu)
    (r : RoomId) (room0 : Room)
    (hp : p.room_id = r) (hc : p.event_content.isCreate = false)
    (hroom : assocGet r rooms = some room0) :
    addPduStep rooms p
      = .ok (assocIns r { room0 with events := room0.events ++ [p] } rooms) := by
  unfold addPduStep
  rw [hc]
  simp only [Bool.false_eq_true, if_false, hp, hroom]

theorem addPduStep_create_room (rooms : List (RoomId × Room)) (p : StoredPdu)
    (r : RoomId)
    (hp : p.room_id = r) (hc : p.event_content.isCreate = true) :
    addPduStep rooms p
      = .ok (assocIns r ⟨[p], [], []⟩ (assocIns r Room.new rooms)) := by
  unfold addPduStep
  rw [hc]
  simp only [if_true, hp, assocGet_ins_self]
  rfl

theorem addPduStep_other_room (rooms rooms2 : List (RoomId × Room)) (p : StoredPdu)
    (r : RoomId)
    (hp : p.room_id ≠ r) (hstep : addPduStep rooms p = .ok rooms2) :
    assocGet r rooms2 = assocGet r rooms := by
  unfold addPduStep at hstep
  by_cases hc : p.event_content.isCreate = true
  · rw [hc] at hstep
    simp only [if_true] at hstep
    cases hget : assocGet p.room_id (assocIns p.room_id Room.new rooms) with
    | none => rw [hget] at hstep; simp at hstep
    | some roomp =>
      rw [hget] at hstep
      simp only [Except.ok.injEq] at hstep
      rw [← hstep, assocGet_ins_other _ _ _ _ (Ne.symm hp),
        assocGet_ins_other _ _ _ _ (Ne.symm hp)]
  · rw [Bool.not_eq_true] at hc
    rw [hc] at hstep
    simp only [Bool.false_eq_true, if_false] at hstep
    cases hget : assocGet p.room_id rooms with
    | none => rw [hget] at hstep; simp at hstep
    | some roomp =>
      rw [hget] at hstep
      simp only [Except.ok.injEq] at hstep
      rw [← hstep, assocGet_ins_other _ _ _ _ (Ne.symm hp)]

theorem addPdusGo_cons_ok (rooms rooms2 : List (RoomId × Room)) (p : StoredPdu)
    (ps : List StoredPdu) (h : addPduStep rooms p = .ok rooms2) :
    addPdusGo rooms (p :: ps) = addPdusGo rooms2 ps := by
  conv_lhs => rw [addPdusGo]
  rw [h]

theorem addPdusGo_cons_err (rooms : List (RoomId × Room)) (p : StoredPdu)
    (ps : List StoredPdu) (e : ErrorKind) (h : addPduStep rooms p = .error e) :
    addPdusGo rooms (p :: ps) = (rooms, some e) := by
  unfold addPdusGo
  rw [h]

theorem addPdusGo_no_create_events (pdus : List StoredPdu)
    (rooms : List (RoomId × Room)) (r : RoomId) (room0 : Room)
    (herr : (addPdusGo rooms pdus).2 = none)
    (hroom : assocGet r rooms = some room0)
    (hnoc : ∀ p ∈ pdus, p.room_id = r → p.event_content.isCreate = false) :
    assocGet r (addPdusGo rooms pdus).1
      = some { room0 with
               events := room0.events ++ pdus.filter (fun p => decide (p.room_id = r)) } := by
  induction pdus generalizing rooms room0 with
  | nil => simpa [addPdusGo] using hroom
  | cons p ps ih =>
    cases hstep : addPduStep rooms p with
    | error e =>
      rw [addPdusGo_cons_err rooms p ps e hstep] at herr
      simp at herr
    | ok rooms2 =>
      rw [addPdusGo_cons_ok rooms rooms2 p ps hstep] at herr ⊢
      by_cases hp : p.room_id = r
      · have hc : p.event_content.isCreate = false :=
          hnoc p (List.mem_cons_self p ps) hp
        have hstep2 := addPduStep_same_room rooms p r room0 hp hc hroom
        rw [hstep2] at hstep
        injection hstep with hrooms2
        subst hrooms2
        have hroom2 : assocGet r
            (assocIns r { room0 with events := room0.events ++ [p] } rooms)
            = some { room0 with events := room0.events ++ [p] } :=
          assocGet_ins_self ..
        have := ih _ _ herr hroom2
          (fun q hq hqr => hnoc q (List.mem_cons_of_mem p hq) hqr)
        rw [this]
        simp [List.filter_cons, hp, List.append_assoc]
      · have hget2 := addPduStep_other_room rooms rooms2 p r hp hstep
        have hroom2 : assocGet r rooms2 = some room0 := hget2.trans hroom
        have := ih _ _ herr hroom2
          (fun q hq hqr => hnoc q (List.mem_cons_of_mem p hq) hqr)
        rw [this]
        simp [List.filter_cons, hp]

theorem addPdusGo_first_create (pdus : List StoredPdu)
    (rooms : List (RoomId × Room)) (r : RoomId) (cpdu : StoredPdu)
    (rest : List StoredPdu)
    (herr : (addPdusGo rooms pdus).2 = none)
    (h0 : assocGet r rooms = none)
    (hsplit : pdus.filter (fun p => decide (p.room_id = r)) = cpdu :: rest)
    (hc : cpdu.event_content.isCreate = true)
    (hrest : ∀ p ∈ rest, p.event_content.isCreate = false) :
    assocGet r (addPdusGo rooms pdus).1 = some ⟨cpdu :: rest, [], []⟩ := by
  induction pdus generalizing rooms with
  | nil => simp at hsplit
  | cons p ps ih =>
    cases hstep : addPduStep rooms p with
    | error e =>
      rw [addPdusGo_cons_err rooms p ps e hstep] at herr
      simp at herr
    | ok rooms2 =>
      rw [addPdusGo_cons_ok rooms rooms2 p ps hstep] at herr ⊢
      by_cases hp : p.room_id = r
      · rw [List.filter_cons, if_pos (by simp [hp])] at hsplit
        injection hsplit with hpc hrest2
        subst hpc
        have hstep2 := addPduStep_create_room rooms p r hp hc
        rw [hstep2] at hstep
        injection hstep with hrooms2
        subst hrooms2
        have hroom2 : assocGet r (assocIns r (⟨[p], [], []⟩ : Room)
            (assocIns r Room.new rooms)) = some ⟨[p], [], []⟩ :=
          assocGet_ins_self ..
        have hnoc : ∀ q ∈ ps, q.room_id = r → q.event_content.isCreate = false := by
          intro q hq hqr
          refine hrest q ?_
          rw [← hrest2]
          exact List.mem_filter.mpr ⟨hq, by simp [hqr]⟩
        have := addPdusGo_no_create_events ps _ r _ herr hroom2 hnoc
        rw [this, hrest2]
        rfl
      · rw [List.filter_cons, if_neg (by simp [hp])] at hsplit
        have hget2 := addPduStep_other_room rooms rooms2 p r hp hstep
        exact ih _ herr (hget2.trans h0) hsplit

theorem matches_no_filters (rid : RoomId) (qt : QueryType) (pdu : StoredPdu) :
    EventQuery.matches ⟨rid, qt, [], [], [], [], none⟩ pdu = true := rfl

/-- Claim C2 (amended): for every sequence of successful appends, a room that
did not exist beforehand and whose appended events start with its (single)
Create event ends up with exactly the appended events, in append order, no
matter how appends into other rooms are interleaved; the full-timeline query
afterwards returns exactly those events.  (The counterexample shows the
single-Create proviso is necessary: a repeated Create append resets the
room.) -/
theorem c2_append_only_per_room (st : MemStorage) (pdus : List StoredPdu)
    (r : RoomId) (cpdu : StoredPdu) (rest : List StoredPdu)
    (herr : (st.add_pdus pdus).2 = none)
    (h0 : assocGet r st.rooms = none)
    (hsplit : pdus.filter (fun p => decide (p.room_id = r)) = cpdu :: rest)
    (hc : cpdu.event_content.isCreate = true)
    (hrest : ∀ p ∈ rest, p.event_content.isCreate = false) :
    (assocGet r (st.add_pdus pdus).1.1.rooms).map (·.events) = some (cpdu :: rest) ∧
    MemStorage.query_pdus (st.add_pdus pdus).1.1
        ⟨r, .timeline 0 none, [], [], [], [], none⟩ false (st.add_pdus pdus).1.1
      = .ok ⟨cpdu :: rest, rest.length⟩ := by
  have hrooms : (st.add_pdus pdus).1.1.rooms = (addPdusGo st.rooms pdus).1 := by
    unfold MemStorage.add_pdus
    rfl
  have herr2 : (addPdusGo st.rooms pdus).2 = none := by
    unfold MemStorage.add_pdus at herr
    exact herr
  have hroom := addPdusGo_first_create pdus st.rooms r cpdu rest herr2 h0 hsplit hc hrest
  constructor
  · rw [hrooms, hroom]
    rfl
  · have hlen : (cpdu :: rest).length - 1 = rest.length := by simp
    have hslice : sliceInclusive (cpdu :: rest) 0 rest.length
        = some (cpdu :: rest) := by
      unfold sliceInclusive
      rw [if_neg (by simp)]
      simp [List.take_of_length_le]
    unfold MemStorage.query_pdus
    simp only [hrooms, hroom, Option.getD_none, hlen, hslice, Option.getD_some,
      Bool.false_and, Bool.false_eq_true, if_false]
    congr 1
    refine congrArg₂ _ ?_ rfl
    exact List.filter_eq_self.mpr (fun a _ => matches_no_filters ..)

/-- Witness for C2: three appends into a fresh roomA (create, then two
messages) leave the timeline [create, m1, m2] and the full-timeline query
returns exactly that. -/
theorem c2_append_only_per_room_witness :
    (assocGet roomA (stEmpty.add_pdus [createPdu, msgAlice, msgBob]).1.1.rooms).map
        (·.events) = some [createPdu, msgAlice, msgBob] ∧
    MemStorage.query_pdus (stEmpty.add_pdus [createPdu, msgAlice, msgBob]).1.1
        ⟨roomA, .timeline 0 none, [], [], [], [], none⟩ false
        (stEmpty.add_pdus [createPdu, msgAlice, msgBob]).1.1
      = .ok ⟨[createPdu, msgAlice, msgBob], 2⟩ := by
  have h := c2_append_only_per_room stEmpty [createPdu, msgAlice, msgBob] roomA
    createPdu [msgAlice, msgBob] (by decide) (by decide) (by decide) (by decide)
    (by decide)
  exact ⟨h.1, h.2⟩

theorem valid_user_roundtrip (u : MatrixId)
    (hd : domainValid u.domain.url = true)
    (hv : Mxid.validate_parts '@' u.localpart u.domain = .ok ()) :
    Mxid.from_str '@' u.toStr = .ok u :=
  from_str_toStr u hd (validate_parts_user_no_colon u.localpart u.domain hv) hv

theorem toStr_eq_iff_of_roundtrip {pre : Char} (a b : Mxid pre)
    (ha : Mxid.from_str pre (Mxid.toStr a) = .ok a)
    (hb : Mxid.from_str pre (Mxid.toStr b) = .ok b) :
    Mxid.toStr a = Mxid.toStr b ↔ a = b :=
  ⟨toStr_inj a b ha hb, fun h => h ▸ rfl⟩

/-- Claim C1: for every candidate m.room.member event over a target rendered
from a factory-valid user id, `validate_member_event` decides exactly as the
§4.1 transition table over (target's prior membership, sender's membership,
target = sender, join rule, sender power, kick/ban/invite thresholds); the
Knock arm is excluded (the source panics with unimplemented there). -/
theorem c1_membership_matrix (get_membership : MatrixId → Option RoomMembership)
    (sender target : MatrixId) (content : Member) (jr : Option JoinRules)
    (pl : PowerLevels)
    (hsd : domainValid sender.domain.url = true)
    (hsv : Mxid.validate_parts '@' sender.localpart sender.domain = .ok ())
    (htd : domainValid target.domain.url = true)
    (htv : Mxid.validate_parts '@' target.localpart target.domain = .ok ())
    (hk : content.membership ≠ .Knock) :
    validate_member_event get_membership ⟨.member content, sender, some target.toStr⟩ jr pl
      = some (membershipTable (get_membership target) (get_membership sender)
          (decide (target = sender)) (jr.map (·.join_rule))
          (pl.get_user_level sender) pl.kick_level pl.ban_level pl.invite_level
          content.membership) := by
  have hpt := valid_user_roundtrip target htd htv
  have hps := valid_user_roundtrip sender hsd hsv
  have hiff := toStr_eq_iff_of_roundtrip target sender hpt hps
  obtain ⟨av, dn, mem, isd⟩ := content
  unfold validate_member_event
  simp only [hpt]
  cases mem with
  | Knock => exact absurd rfl hk
  | Join =>
    by_cases hts : target = sender
    · subst hts
      cases hgm : get_membership target with
      | none =>
        cases jr with
        | none => simp [membershipTable]
        | some jrs =>
          obtain ⟨rule⟩ := jrs
          cases rule <;> simp [membershipTable]
      | some m =>
        cases m with
        | Join => simp [membershipTable]
        | Invite => simp [membershipTable]
        | Ban => simp [membershipTable]
        | Leave =>
          cases jr with
          | none => simp [membershipTable]
          | some jrs =>
            obtain ⟨rule⟩ := jrs
            cases rule <;> simp [membershipTable]
        | Knock =>
          cases jr with
          | none => simp [membershipTable]
          | some jrs =>
            obtain ⟨rule⟩ := jrs
            cases rule <;> simp [membershipTable]
    · simp [membershipTable, hts]
  | Leave =>
    by_cases hsm : get_membership sender = some .Join
    · by_cases hts : target = sender
      · have hstr : Mxid.toStr target = Mxid.toStr sender := by rw [hts]
        simp [membershipTable, hsm, hts, hstr]
      · have hstr : Mxid.toStr target ≠ Mxid.toStr sender := fun h => hts (hiff.mp h)
        by_cases hpow : pl.get_user_level sender < pl.kick_level
        · simp [membershipTable, hsm, hts, hstr, hpow]
        · simp [membershipTable, hsm, hts, hstr, hpow]
    · simp [membershipTable, hsm]
  | Ban =>
    by_cases hsm : get_membership sender = some .Join
    · by_cases hpow : pl.get_user_level sender < pl.ban_level
      · simp [membershipTable, hsm, hpow]
      · simp [membershipTable, hsm, hpow]
    · simp [membershipTable, hsm]
  | Invite =>
    by_cases hsm : get_membership sender = some .Join
    · by_cases hpow : pl.get_user_level sender < pl.invite_level
      · simp [membershipTable, hsm, hpow]
      · simp [membershipTable, hsm, hpow]
    · simp [membershipTable, hsm]

/-- Witness for C1: a self-join by an already-joined valid user is accepted,
matching the table. -/
theorem c1_membership_matrix_witness :
    validate_member_event (fun _ => some .Join)
        ⟨.member ⟨none, none, .Join, none⟩, alice, some (Mxid.toStr alice)⟩ none
        emptyPowerLevels
      = some (membershipTable (some .Join) (some .Join) (decide (alice = alice)) none
          (emptyPowerLevels.get_user_level alice) emptyPowerLevels.kick_level
          emptyPowerLevels.ban_level emptyPowerLevels.invite_level .Join) :=
  c1_membership_matrix (fun _ => some .Join) alice alice ⟨none, none, .Join, none⟩ none
    emptyPowerLevels (by decide) (by decide) (by decide) (by decide) (by decide)

theorem from_str_shape (pre : Char) (l d : Str) (hl : ':' ∉ l) :
    Mxid.from_str pre (pre :: l ++ ':' :: d)
      = if domainValid d then
          match Mxid.validate_parts pre l ⟨d⟩ with
          | .error e => .error e
          | .ok _ => .ok ⟨⟨d⟩, l⟩
        else .error .InvalidDomain := by
  unfold Mxid.from_str Mxid.validate_all
  simp only [List.cons_append]
  rw [if_neg (by simp)]
  rw [splitOnColon_append_colon l d hl]
  cases hsp : splitOnColon d with
  | nil => exact absurd hsp (splitOnColon_ne_nil d)
  | cons p ps =>
    have hjoin : joinColon (p :: ps) = d := by
      rw [← hsp]; exact joinColon_splitOnColon d
    simp only [List.isEmpty_cons, Bool.false_eq_true, if_false, hjoin, Domain.from_str]
    by_cases hd : domainValid d
    · rw [if_pos hd, if_pos hd]
      cases hv : Mxid.validate_parts pre l ⟨d⟩ <;> simp only [hv]
    · rw [if_neg hd, if_neg hd]

/-- Claim C8 (amended): rendering then parsing is the identity for every
factory-valid user id, and for every factory-valid room id whose localpart
contains no colon (the factory does not character-check room localparts, and
a colon in one breaks the round trip — see the counterexample); and parsing
rejects each invalid-string class with its specific error kind: wrong leading
prefix → NoLeadingChar, zero colons → WrongNumberOfColons, oversized with
otherwise-valid parts → TooLong, disallowed user-localpart character →
InvalidChar. -/
theorem c8_roundtrip_and_error_kinds :
    (∀ u : MatrixId, domainValid u.domain.url = true →
      Mxid.validate_parts '@' u.localpart u.domain = .ok () →
      Mxid.from_str '@' u.toStr = .ok u) ∧
    (∀ r : RoomId, domainValid r.domain.url = true →
      Mxid.validate_parts '!' r.localpart r.domain = .ok () → ':' ∉ r.localpart →
      Mxid.from_str '!' r.toStr = .ok r) ∧
    (∀ (pre : Char) (s : Str), s.head? ≠ some pre →
      Mxid.from_str pre s = .error (.NoLeadingChar pre)) ∧
    (∀ (pre : Char) (rest : Str), ':' ∉ rest →
      Mxid.from_str pre (pre :: rest) = .error .WrongNumberOfColons) ∧
    (∀ (pre : Char) (l d : Str), ':' ∉ l → domainValid d = true →
      (pre = '@' → l.all userLocalChar = true) →
      byteLen l + byteLen d + 1 + charBytes pre > 255 →
      Mxid.from_str pre (pre :: l ++ ':' :: d) = .error .TooLong) ∧
    (∀ (l d : Str), ':' ∉ l → domainValid d = true →
      l.any (fun c => !userLocalChar c) = true →
      Mxid.from_str '@' ('@' :: l ++ ':' :: d) = .error .InvalidChar) := by
  refine ⟨?_, ?_, ?_, ?_, ?_, ?_⟩
  · exact fun u hd hv => valid_user_roundtrip u hd hv
  · exact fun r hd hv hl => from_str_toStr r hd hl hv
  · intro pre s h
    cases s with
    | nil => rfl
    | cons c cs =>
      have hcp : c ≠ pre := by
        intro he
        exact h (by rw [he]; rfl)
      simp only [Mxid.from_str, Mxid.validate_all]
      rw [if_pos hcp]
  · intro pre rest h
    simp only [Mxid.from_str, Mxid.validate_all]
    rw [if_neg (by simp), splitOnColon_no_colon rest h]
    rfl
  · intro pre l d hl hd hall hlen
    rw [from_str_shape pre l d hl, if_pos hd]
    have hfirst : (Mxid.is_matrix_id pre && l.any (fun c => !userLocalChar c)) = false := by
      by_cases hpre : pre = '@'
      · have : l.any (fun c => !userLocalChar c) = false := by
          rw [List.any_eq_false]
          intro c hc
          simpa using List.all_eq_true.mp (hall hpre) c hc
        rw [this, Bool.and_false]
      · have : Mxid.is_matrix_id pre = false := by
          simp [Mxid.is_matrix_id, hpre]
        rw [this, Bool.false_and]
    unfold Mxid.validate_parts
    rw [hfirst]
    simp only [Bool.false_eq_true, if_false]
    rw [if_pos hlen]
  · intro l d hl hd hany
    rw [from_str_shape '@' l d hl, if_pos hd]
    unfold Mxid.validate_parts
    rw [show (Mxid.is_matrix_id '@' && l.any (fun c => !userLocalChar c)) = true from by
      rw [hany, Bool.and_true]; rfl]
    rfl

set_option maxRecDepth 10000 in
/-- Witness for C8: each conjunct applied at a concrete input. -/
theorem c8_roundtrip_and_error_kinds_witness :
    Mxid.from_str '@' (Mxid.toStr alice) = .ok alice ∧
    Mxid.from_str '!' (Mxid.toStr (⟨⟨"c".data⟩, "ab".data⟩ : RoomId))
      = .ok ⟨⟨"c".data⟩, "ab".data⟩ ∧
    Mxid.from_str '@' "xalice:b".data = .error (.NoLeadingChar '@') ∧
    Mxid.from_str '@' ('@' :: "abc".data) = .error .WrongNumberOfColons ∧
    Mxid.from_str '@' ('@' :: List.replicate 254 'a' ++ ':' :: "b".data)
      = .error .TooLong ∧
    Mxid.from_str '@' ('@' :: "A".data ++ ':' :: "b".data) = .error .InvalidChar := by
  obtain ⟨h1, h2, h3, h4, h5, h6⟩ := c8_roundtrip_and_error_kinds
  refine ⟨h1 alice (by decide) (by decide),
    h2 ⟨⟨"c".data⟩, "ab".data⟩ (by decide) (by decide) (by decide),
    h3 '@' "xalice:b".data (by decide),
    h4 '@' "abc".data (by decide), ?_,
    h6 "A".data "b".data (by decide) (by decide) (by decide)⟩
  exact h5 '@' (List.replicate 254 'a') "b".data (by decide) (by decide)
    (fun _ => by decide) (by decide)

/-- Claim C8 counterexample: the validating factory accepts the room id with
localpart "a:b" over the valid domain "c" (room localparts are not
character-checked), but rendering it gives "!a:b:c", which re-parses with
localpart "a" and domain candidate "b:c" — an invalid domain — so parsing
fails with InvalidDomain instead of returning the original identifier. -/
theorem c8_counterexample_room_localpart_colon :
    Mxid.new '!' "a:b".data ⟨"c".data⟩ = .ok ⟨⟨"c".data⟩, "a:b".data⟩ ∧
    domainValid "c".data = true ∧
    Mxid.from_str '!' (Mxid.toStr (⟨⟨"c".data⟩, "a:b".data⟩ : RoomId))
      = .error .InvalidDomain ∧
    (Except.error .InvalidDomain : Except MxidError RoomId)
      ≠ .ok ⟨⟨"c".data⟩, "a:b".data⟩ := by
  decide

theorem syncRoomsGo_skip_all (st : MemStorage) (fs : Bool)
    (gfs : RoomId → List Event) (counts : RoomId → Nat × Nat) (now : Nat)
    (ms : List (RoomId × RoomMembership)) (acc : SyncAcc)
    (h1 : ∀ p ∈ ms, p.2 ≠ RoomMembership.Join)
    (h2 : ∀ p ∈ ms, p.2 = RoomMembership.Invite → p.1 ∈ acc.batch.invites) :
    syncRoomsGo st fs gfs counts now ms acc = .ok acc := by
  induction ms with
  | nil => rfl
  | cons p rest ih =>
    obtain ⟨rid, m⟩ := p
    have h1r : ∀ q ∈ rest, q.2 ≠ RoomMembership.Join :=
      fun q hq => h1 q (List.mem_cons_of_mem _ hq)
    have h2r : ∀ q ∈ rest, q.2 = RoomMembership.Invite → q.1 ∈ acc.batch.invites :=
      fun q hq => h2 q (List.mem_cons_of_mem _ hq)
    cases m with
    | Join => exact absurd rfl (h1 (rid, .Join) (List.mem_cons_self ..))
    | Invite =>
      have hin : rid ∈ acc.batch.invites :=
        h2 (rid, .Invite) (List.mem_cons_self ..) rfl
      simp only [syncRoomsGo, hin, decide_eq_true_eq, if_pos]
      exact ih h1r h2r
    | Leave =>
      simp only [syncRoomsGo]
      exact ih h1r h2r
    | Ban =>
      simp only [syncRoomsGo]
      exact ih h1r h2r
    | Knock =>
      simp only [syncRoomsGo]
      exact ih h1r h2r

/-- Claim C9: a sync call by a caller joined to zero rooms whose delta
computation produces nothing (every invite already delivered) persists the
resolved cursor under the freshly generated batch id, then sleeps for the
caller-specified timeout, and returns a response with empty room deltas whose
next_batch is the fresh id — in that program order. -/
theorem c9_sync_zero_joined_rooms (st : MemStorage)
    (get_membership : RoomId → Option RoomMembership)
    (gfs : RoomId → List Event) (counts : RoomId → Nat × Nat)
    (now : Nat) (nb : Str) (since : Option Str) (fs : Bool) (timeout : Nat)
    (h1 : ∀ r, get_membership r ≠ some RoomMembership.Join)
    (h2 : ∀ r, get_membership r = some RoomMembership.Invite →
      r ∈ ((st.get_batch (since.getD "empty".data)).getD Batch.default).invites) :
    sync st get_membership gfs counts now nb since fs timeout
      = .ok ([.setBatch nb ((st.get_batch (since.getD "empty".data)).getD Batch.default),
              .sleep timeout],
             ⟨nb, [], [], []⟩,
             st.set_batch nb
               ((st.get_batch (since.getD "empty".data)).getD Batch.default)) := by
  unfold sync
  have hmem : ∀ p ∈ (st.rooms.map (·.1)).filterMap
      (fun r => (get_membership r).map (fun m => (r, m))),
      get_membership p.1 = some p.2 := by
    intro p hp
    obtain ⟨r, _, hfr⟩ := List.mem_filterMap.mp hp
    cases hgr : get_membership r with
    | none => rw [hgr] at hfr; simp at hfr
    | some m =>
      rw [hgr] at hfr
      simp only [Option.map_some'] at hfr
      injection hfr with h3
      subst h3
      exact hgr
  have hgo := syncRoomsGo_skip_all st fs gfs counts now
    ((st.rooms.map (·.1)).filterMap (fun r => (get_membership r).map (fun m => (r, m))))
    ⟨(st.get_batch (since.getD "empty".data)).getD Batch.default, [], [], false⟩
    (fun p hp hj => h1 p.1 (by rw [hmem p hp, hj]))
    (fun p hp hi => h2 p.1 (by rw [hmem p hp, hi]))
  rw [hgo]
  have hfil : ((st.rooms.map (·.1)).filterMap
      (fun r => (get_membership r).map (fun m => (r, m)))).filter
      (fun p => decide (p.2 = RoomMembership.Join)) = [] := by
    rw [List.filter_eq_nil_iff]
    intro p hp
    simp only [decide_eq_true_eq]
    intro hj
    exact h1 p.1 (by rw [hmem p hp, hj])
  simp only [hfil, List.map_nil, List.isEmpty_nil, Bool.false_eq_true, if_false]
  simp

/-- Witness for C9 on the empty store: no rooms, hence no joined rooms and no
pending invites. -/
theorem c9_sync_zero_joined_rooms_witness :
    sync stEmpty (fun _ => none) (fun _ => []) (fun _ => (0, 0)) 0 "nb".data none
        false 50
      = .ok ([.setBatch "nb".data Batch.default, .sleep 50],
             ⟨"nb".data, [], [], []⟩,
             stEmpty.set_batch "nb".data Batch.default) := by
  have h := c9_sync_zero_joined_rooms stEmpty (fun _ => none) (fun _ => [])
    (fun _ => (0, 0)) 0 "nb".data none false 50
    (fun r => by simp) (fun r hr => by simp at hr)
  exact h
